import Mathlib

/-!
Shallow embedding of the TPA reduction engine (`alpha.rs`, `actions.rs`,
`tpa.rs`).  Rust strings are modelled as `List Char` together with their
UTF-8 byte lengths; Rust byte-index slicing is modelled by a boundary-checked
split that returns `none` exactly where Rust would panic.  Fallible Rust
functions returning `anyhow::Result` are modelled with `Except TpaErr` /
`Outcome`, where `Outcome.panic` marks the places the Rust code aborts
(`unwrap`, out-of-bounds or non-boundary slicing) rather than returning a
tagged error.
-/

namespace Tpa

/-- The value of an `Alpha` (`alpha.rs`): an integer in `[1, 26]`,
`'A' = 1 .. 'Z' = 26`, stored in the Rust code as a `u8`. -/
abbrev Alpha := Nat

/-- `Rust char::is_ascii_uppercase`: true exactly on `'A'..='Z'`. -/
def isAsciiUpper (c : Char) : Bool :=
  decide (65 ≤ c.toNat ∧ c.toNat ≤ 90)

/-- `Alpha::new` (`alpha.rs`): `Some(c - 'A' + 1)` for an ASCII uppercase
letter, `None` otherwise. -/
def Alpha.new (c : Char) : Option Alpha :=
  if isAsciiUpper c then some (c.toNat - 64) else none

/-- `Alpha::is_vowel` (`alpha.rs`): values 1, 5, 9, 15, 21, 25
(A, E, I, O, U and Y). -/
def Alpha.is_vowel (a : Nat) : Bool :=
  decide (a = 1 ∨ a = 5 ∨ a = 9 ∨ a = 15 ∨ a = 21 ∨ a = 25)

/-- `Alpha::rot13` (`alpha.rs`): `(a - 1 + 13) % 26 + 1`. -/
def Alpha.rot13 (a : Nat) : Nat :=
  (a - 1 + 13) % 26 + 1

/-- `Add for &Alpha` (`alpha.rs`): `(a + b - 1) % 26 + 1`. -/
def Alpha.add (a b : Nat) : Nat :=
  (a + b - 1) % 26 + 1

/-- `Alpha::as_char` (`alpha.rs`): `(a - 1 + 'A') as char`. -/
def Alpha.as_char (a : Nat) : Char :=
  Char.ofNat (a - 1 + 65)

/-- `ALPHABET` (`alpha.rs`): the 26 symbols `A..Z`, values `[1, …, 26]`. -/
def ALPHABET : List Alpha :=
  List.range' 1 26

/-! ## The six block transformations (`actions.rs`).
A block is the Rust `[Alpha; 16]`, modelled as a `List Alpha` of length 16
(length hypotheses appear on theorems that need them). -/

/-- `reverse` (`actions.rs`). -/
def reverse (input : List Alpha) : List Alpha :=
  input.reverse

/-- `consonant_rot13` (`actions.rs`): rot13 on non-vowels, vowels unchanged. -/
def consonant_rot13 (input : List Alpha) : List Alpha :=
  input.map fun a => if Alpha.is_vowel a then a else Alpha.rot13 a

/-- One iteration of the `swap_vowels` loop body (`actions.rs`): if the
current value at index `i` is a vowel, swap it with the current value at
`i - 1`. -/
def swapStep (w : List Alpha) (i : Nat) : List Alpha :=
  if Alpha.is_vowel (w.getD i 0) then
    (w.set (i - 1) (w.getD i 0)).set i (w.getD (i - 1) 0)
  else
    w

/-- `swap_vowels` (`actions.rs`): a single left-to-right pass of `swapStep`
over indices `1..16` on one working array seeded from the input. -/
def swap_vowels (input : List Alpha) : List Alpha :=
  (List.range' 1 15).foldl swapStep input

/-- One iteration of the `combine_positions` loop body (`actions.rs`):
write `w[i] + w[i+1]` into both positions `i` and `i + 1`. -/
def combineStep (w : List Alpha) (i : Nat) : List Alpha :=
  let c := Alpha.add (w.getD i 0) (w.getD (i + 1) 0)
  (w.set i c).set (i + 1) c

/-- `combine_positions` (`actions.rs`): `combineStep` at 0, 2, …, 14. -/
def combine_positions (input : List Alpha) : List Alpha :=
  [0, 2, 4, 6, 8, 10, 12, 14].foldl combineStep input

/-- `swap_back_front` (`actions.rs`): `input[8..] ++ input[..8]`. -/
def swap_back_front (input : List Alpha) : List Alpha :=
  input.drop 8 ++ input.take 8

/-- `even_rot13` (`actions.rs`): rot13 where `(index + 1) % 2 == 0`. -/
def even_rot13 (input : List Alpha) : List Alpha :=
  input.mapIdx fun i c => if (i + 1) % 2 == 0 then Alpha.rot13 c else c

/-- `Action` (`actions.rs`): the closed set of six composite actions. -/
inductive Action
  | A
  | B
  | C
  | D
  | E
  | F
deriving DecidableEq, Repr

/-- `Action::new` (`actions.rs`): select by `Alpha` value 1–6. -/
def Action.new (a : Alpha) : Option Action :=
  match a with
  | 1 => some Action.A
  | 2 => some Action.B
  | 3 => some Action.C
  | 4 => some Action.D
  | 5 => some Action.E
  | 6 => some Action.F
  | _ => none

/-- `Action::transform` (`actions.rs`): the fixed composition each action
applies to a block. -/
def Action.transform (act : Action) (input : List Alpha) : List Alpha :=
  match act with
  | Action.A => swap_vowels (consonant_rot13 (reverse input))
  | Action.B => swap_back_front (even_rot13 (combine_positions input))
  | Action.C => swap_vowels (combine_positions (consonant_rot13 input))
  | Action.D => combine_positions (reverse (swap_back_front input))
  | Action.E => reverse (even_rot13 (swap_vowels input))
  | Action.F => consonant_rot13 (swap_vowels (even_rot13 input))

/-! ## Rust string model (byte lengths and byte-index slicing). -/

/-- UTF-8 byte length of a character (Rust `char::len_utf8`; Rust `str::len`
is the sum of these). -/
def utf8Len (c : Char) : Nat :=
  if c.toNat ≤ 0x7F then 1
  else if c.toNat ≤ 0x7FF then 2
  else if c.toNat ≤ 0xFFFF then 3
  else 4

/-- Byte length of a Rust string (`str::len`). -/
def byteLen (s : List Char) : Nat :=
  (s.map utf8Len).sum

/-- Rust `char::is_whitespace`: the Unicode `White_Space` set. -/
def rustIsWhitespace (c : Char) : Bool :=
  decide ((9 ≤ c.toNat ∧ c.toNat ≤ 13) ∨ c.toNat = 32 ∨ c.toNat = 0x85 ∨
    c.toNat = 0xA0 ∨ c.toNat = 0x1680 ∨
    (0x2000 ≤ c.toNat ∧ c.toNat ≤ 0x200A) ∨ c.toNat = 0x2028 ∨
    c.toNat = 0x2029 ∨ c.toNat = 0x202F ∨ c.toNat = 0x205F ∨
    c.toNat = 0x3000)

/-- `seed.replace(char::is_whitespace, "")` (`tpa.rs`). -/
def stripWs (s : List Char) : List Char :=
  s.filter fun c => !rustIsWhitespace c

/-- Split a string at byte index `n` (Rust `&s[..n]` / `&s[n..]`).
`none` models the Rust panic when `n` is out of bounds or falls strictly
inside a multi-byte character (not on a char boundary). -/
def byteSplitAt (n : Nat) : List Char → Option (List Char × List Char)
  | [] => if n = 0 then some ([], []) else none
  | c :: cs =>
    if n = 0 then some ([], c :: cs)
    else if utf8Len c ≤ n then
      (byteSplitAt (n - utf8Len c) cs).map fun p => (c :: p.1, p.2)
    else none

/-- Rust `&s[a..b]` (with `a ≤ b`): `none` models the slice panic. -/
def byteSlice (a b : Nat) (s : List Char) : Option (List Char) :=
  match byteSplitAt a s with
  | none => none
  | some p =>
    match byteSplitAt (b - a) p.2 with
    | none => none
    | some q => some q.1

/-! ## TpaGroup and the reduction (`tpa.rs`). -/

/-- Error values carried by `anyhow::Result` in `tpa.rs`. -/
inductive TpaErr
  | invalidLength
  | invalidUppercase (c : Char)
  | notUppercase (c : Char)
  | notValidAction (a : Alpha)
deriving DecidableEq, Repr

/-- The character-parsing part of `TpaGroup::from_str` (`tpa.rs`):
`s.chars().map(Alpha::new …).collect::<Result<Vec<_>>>()`, short-circuiting
at the first character that is not ASCII uppercase. -/
def parseAlphas : List Char → Except TpaErr (List Alpha)
  | [] => Except.ok []
  | c :: cs =>
    match Alpha.new c with
    | none => Except.error (TpaErr.invalidUppercase c)
    | some a =>
      match parseAlphas cs with
      | Except.error e => Except.error e
      | Except.ok xs => Except.ok (a :: xs)

/-- `TpaGroup::from_str` (`tpa.rs`): fail with `InvalidLength` when the byte
length exceeds 16; otherwise parse every character and pad with the first
`16 - s.len()` symbols of `ALPHABET`. -/
def TpaGroup.from_str (s : List Char) : Except TpaErr (List Alpha) :=
  if byteLen s > 16 then Except.error TpaErr.invalidLength
  else
    match parseAlphas s with
    | Except.error e => Except.error e
    | Except.ok xs => Except.ok (xs ++ ALPHABET.take (16 - byteLen s))

/-- `TpaGroup::transform` (`tpa.rs`): look up the action for the preamble
symbol (error when its value is outside 1–6) and apply it. -/
def TpaGroup.transform (g : List Alpha) (action_group : Alpha) :
    Except TpaErr (List Alpha) :=
  match Action.new action_group with
  | none => Except.error (TpaErr.notValidAction action_group)
  | some act => Except.ok (Action.transform act g)

/-- `Add for &TpaGroup` (`tpa.rs`): element-wise `Alpha` addition. -/
def TpaGroup.addG (a b : List Alpha) : List Alpha :=
  (a.zip b).map fun p => Alpha.add p.1 p.2

/-- `TpaGroup::to_string` (`tpa.rs`). -/
def TpaGroup.toChars (g : List Alpha) : List Char :=
  g.map Alpha.as_char

/-- The preamble-parsing map in `marvin_tpa_12` (`tpa.rs`): like
`parseAlphas` but with the "Not an uppercase letter" error. -/
def parsePreamble : List Char → Except TpaErr (List Alpha)
  | [] => Except.ok []
  | c :: cs =>
    match Alpha.new c with
    | none => Except.error (TpaErr.notUppercase c)
    | some a =>
      match parsePreamble cs with
      | Except.error e => Except.error e
      | Except.ok xs => Except.ok (a :: xs)

/-- Result of running a fallible Rust function that can also panic:
`ok` a value, `error` a tagged `anyhow` error, or `panic` (process abort). -/
inductive Outcome (α : Type)
  | ok (val : α)
  | error (e : TpaErr)
  | panic
deriving DecidableEq, Repr

/-- `(seed.len() + 16) / 17` in `marvin_tpa_12` (`tpa.rs`), that is
`ceil(len / 17)`. -/
def preambleLen (n : Nat) : Nat :=
  (n + 16) / 17

/-- The chunk start offsets `(0..len).step_by(16)` in `marvin_tpa_12`
(`tpa.rs`): `0, 16, 32, …`, strictly below `len`. -/
def chunkStarts (len : Nat) : List Nat :=
  (List.range ((len + 15) / 16)).map fun i => i * 16

/-- The per-pair map body of `marvin_tpa_12` (`tpa.rs`) over the zipped
`(start, action_group)` pairs, collected with short-circuiting, in order:
slice the body (panic when a bound is not a char boundary), parse the group,
transform it. -/
def processPairs (body : List Char) :
    List (Nat × Alpha) → Outcome (List (List Alpha))
  | [] => Outcome.ok []
  | (start, action_group) :: rest =>
    match byteSlice start (min (start + 16) (byteLen body)) body with
    | none => Outcome.panic
    | some slice =>
      match TpaGroup.from_str slice with
      | Except.error e => Outcome.error e
      | Except.ok g =>
        match TpaGroup.transform g action_group with
        | Except.error e => Outcome.error e
        | Except.ok tg =>
          match processPairs body rest with
          | Outcome.panic => Outcome.panic
          | Outcome.error e => Outcome.error e
          | Outcome.ok gs => Outcome.ok (tg :: gs)

/-- `marvin_tpa_12` (`tpa.rs`): strip whitespace, take the first
`ceil(len/17)` bytes as the preamble, chunk the rest in 16-byte slices,
transform each chunk by its paired preamble action and fold with `+`.
The final `.reduce(…).unwrap()` panics when there are zero pairs. -/
def marvin_tpa_12 (seed : List Char) : Outcome (List Char) :=
  let s := stripWs seed
  let plen := preambleLen (byteLen s)
  match byteSplitAt plen s with
  | none => Outcome.panic
  | some p =>
    match parsePreamble p.1 with
    | Except.error e => Outcome.error e
    | Except.ok actions =>
      let body := p.2
      let pairs := (chunkStarts (byteLen body)).zip actions
      match processPairs body pairs with
      | Outcome.panic => Outcome.panic
      | Outcome.error e => Outcome.error e
      | Outcome.ok blocks =>
        match blocks with
        | [] => Outcome.panic
        | b :: bs => Outcome.ok (TpaGroup.toChars (bs.foldl TpaGroup.addG b))

/-- `marvin_tpa` (`tpa.rs`): strip whitespace, prepend
`ceil(len/16)` copies of `'A'`, delegate to `marvin_tpa_12`. -/
def marvin_tpa (seed : List Char) : Outcome (List Char) :=
  let s := stripWs seed
  let num_groups := (byteLen s + 15) / 16
  marvin_tpa_12 (List.replicate num_groups 'A' ++ s)

/-- The test helper `to_alphas` (`actions.rs`): parse a string into the
symbols of a block, dropping unparseable characters. -/
def to_alphas (s : List Char) : List Alpha :=
  s.filterMap Alpha.new

/-- An explicitly sequential rendering of the specification's description of
`swapVowels`: starting from the working array `w` at index `i`, run the
conditional swap and move to `i + 1`, for `fuel` steps. -/
def seqSwapGo : List Alpha → Nat → Nat → List Alpha
  | w, _, 0 => w
  | w, i, fuel + 1 => seqSwapGo (swapStep w i) (i + 1) fuel

/-- The specification's `swapVowels`: one left-to-right pass of the
conditional swap over indices 1 through 15 on one working array. -/
def seqSwapPass (input : List Alpha) : List Alpha :=
  seqSwapGo input 1 15

/-! ## Supporting lemmas. -/

/-- An ASCII uppercase letter occupies one UTF-8 byte. -/
theorem utf8Len_of_upper {c : Char} (h : isAsciiUpper c = true) :
    utf8Len c = 1 := by
  simp only [isAsciiUpper, decide_eq_true_eq] at h
  simp only [utf8Len]
  rw [if_pos (by omega)]

/-- Every character occupies at least one UTF-8 byte. -/
theorem one_le_utf8Len (c : Char) : 1 ≤ utf8Len c := by
  simp only [utf8Len]
  split
  · omega
  · split
    · omega
    · split <;> omega

/-- On all-ASCII-uppercase strings the Rust byte length is the character
count. -/
theorem byteLen_of_upper :
    ∀ s : List Char, (∀ c ∈ s, isAsciiUpper c = true) →
      byteLen s = s.length
  | [], _ => rfl
  | c :: cs, h => by
    have hc : utf8Len c = 1 := utf8Len_of_upper (h c (by simp))
    have ih := byteLen_of_upper cs (fun d hd => h d (by simp [hd]))
    simp only [byteLen, List.map_cons, List.sum_cons, List.length_cons] at *
    omega

/-- The character count never exceeds the Rust byte length. -/
theorem length_le_byteLen :
    ∀ s : List Char, s.length ≤ byteLen s
  | [] => Nat.le_refl 0
  | c :: cs => by
    have h1 := one_le_utf8Len c
    have ih := length_le_byteLen cs
    simp only [byteLen, List.map_cons, List.sum_cons, List.length_cons] at *
    omega

/-- On all-ASCII-uppercase strings, `parseAlphas` succeeds with the
1-indexed letter values in order. -/
theorem parseAlphas_of_upper :
    ∀ s : List Char, (∀ c ∈ s, isAsciiUpper c = true) →
      parseAlphas s = Except.ok (s.map fun c => c.toNat - 64)
  | [], _ => rfl
  | c :: cs, h => by
    have hc : isAsciiUpper c = true := h c (by simp)
    have ih := parseAlphas_of_upper cs (fun d hd => h d (by simp [hd]))
    simp only [parseAlphas, Alpha.new, hc, if_pos, ih, List.map_cons]

/-- A fold of `swapStep` over the contiguous index range starting at `i`
is the explicitly sequential pass from `i`. -/
theorem foldl_swapStep_eq_seqSwapGo :
    ∀ (fuel i : Nat) (w : List Alpha),
      (List.range' i fuel).foldl swapStep w = seqSwapGo w i fuel := by
  intro fuel
  induction fuel with
  | zero => intro i w; rfl
  | succ n ih =>
    intro i w
    rw [List.range'_succ, List.foldl_cons, ih (i + 1) (swapStep w i)]
    rfl

/-! ## The claims. -/

/-- C1: the claim says a seed yielding zero (chunk, action) pairs — e.g. the
empty string — makes `marvin_tpa_12` return a tagged `EmptyReduction` error
without aborting.  The code instead calls `.reduce(…).unwrap()` on the empty
fold, which panics: on the empty seed the embedded `marvin_tpa_12` reaches
the `Outcome.panic` of the final `unwrap`, not a tagged error. -/
theorem c1_empty_seed_panics : marvin_tpa_12 [] = Outcome.panic := by
  decide

set_option maxHeartbeats 4000000 in
/-- C2: on the 26-character seed `"ABCDEFGHIJKLMNOPQRSTUVWXYZ"`,
`marvin_tpa_12` takes `ceil(26/17) = 2` preamble characters and returns
exactly `"HTVUNWOZVUNXZAPB"`. -/
theorem c2_marvin_tpa_12_fixture :
    preambleLen (byteLen (stripWs "ABCDEFGHIJKLMNOPQRSTUVWXYZ".toList)) = 2 ∧
    marvin_tpa_12 "ABCDEFGHIJKLMNOPQRSTUVWXYZ".toList =
      Outcome.ok "HTVUNWOZVUNXZAPB".toList := by
  constructor
  · decide
  · decide

set_option maxHeartbeats 4000000 in
/-- C3: `marvin_tpa` strips whitespace, prepends `ceil(len/16)` copies of
`'A'` to the stripped seed and delegates to `marvin_tpa_12`; on
`"ABCDEFGHIJKLMNOPQRSTUVWXYZ"` it returns exactly `"TTTNANHHHCZCXTGT"`. -/
theorem c3_marvin_tpa_fixture :
    (∀ seed : List Char,
      marvin_tpa seed =
        marvin_tpa_12
          (List.replicate ((byteLen (stripWs seed) + 15) / 16) 'A' ++
            stripWs seed)) ∧
    marvin_tpa "ABCDEFGHIJKLMNOPQRSTUVWXYZ".toList =
      Outcome.ok "TTTNANHHHCZCXTGT".toList := by
  constructor
  · intro seed
    rfl
  · decide

/-- C4: `swap_vowels` is the sequential single left-to-right pass over
indices 1–15 on one working array, with the conditional swap applied at
index `i` before index `i + 1` is examined (so a swap's effect is visible to
later steps and can cascade); `"ABCDEFGHIJKLMNOP"` maps to
`"ABCEDFGIHJKLMONP"`, and on `"BAECDFGHJKLMNPQR"` the cascade lets the
leading consonant bubble right past two vowels, giving
`"AEBCDFGHJKLMNPQR"`. -/
theorem c4_swap_vowels_sequential :
    (∀ input : List Alpha, swap_vowels input = seqSwapPass input) ∧
    swap_vowels (to_alphas "ABCDEFGHIJKLMNOP".toList) =
      to_alphas "ABCEDFGIHJKLMONP".toList ∧
    swap_vowels (to_alphas "BAECDFGHJKLMNPQR".toList) =
      to_alphas "AEBCDFGHJKLMNPQR".toList := by
  refine ⟨fun input => foldl_swapStep_eq_seqSwapGo 15 1 input, ?_, ?_⟩
  · decide
  · decide

/-- C5: `TpaGroup::from_str` on a text of fewer than 16 ASCII uppercase
characters returns the parsed values followed by the first `16 - len`
symbols of `ALPHABET` starting from `A` (independent of any position
argument — `from_str` takes none); a text of more than 16 characters fails
with `InvalidLength`. -/
theorem c5_from_str_pad_and_length :
    (∀ s : List Char, s.length < 16 → (∀ c ∈ s, isAsciiUpper c = true) →
      TpaGroup.from_str s =
        Except.ok ((s.map fun c => c.toNat - 64) ++
          ALPHABET.take (16 - s.length))) ∧
    (∀ s : List Char, 16 < s.length →
      TpaGroup.from_str s = Except.error TpaErr.invalidLength) := by
  constructor
  · intro s hlen hup
    have hb : byteLen s = s.length := byteLen_of_upper s hup
    have hp := parseAlphas_of_upper s hup
    simp only [TpaGroup.from_str, hb, hp]
    rw [if_neg (by omega)]
  · intro s hlen
    have hb := length_le_byteLen s
    simp only [TpaGroup.from_str]
    rw [if_pos (by omega)]

/-- C5 witness: `from_str` evaluated on `"AB"` (padded with the first 14
alphabet symbols) and on a 17-character string (InvalidLength). -/
theorem c5_from_str_pad_and_length_witness :
    TpaGroup.from_str "AB".toList =
      Except.ok (("AB".toList.map fun c => c.toNat - 64) ++
        ALPHABET.take (16 - "AB".toList.length)) ∧
    TpaGroup.from_str (List.replicate 17 'A') =
      Except.error TpaErr.invalidLength :=
  ⟨c5_from_str_pad_and_length.1 "AB".toList (by decide) (by decide),
   c5_from_str_pad_and_length.2 (List.replicate 17 'A') (by decide)⟩

/-- C6: chunk `i` starts at byte offset `16 · i`, the zipped
(chunk, action) list has `min(#chunks, #preamble)` entries, and entry `i`
pairs chunk start `16 · i` with preamble symbol `i` — excess entries on
either side simply do not appear in the zip. -/
theorem c6_pairing_truncates :
    ∀ (n : Nat) (acts : List Alpha),
      ((chunkStarts n).zip acts).length = min ((n + 15) / 16) acts.length ∧
      ∀ i (h1 : i < ((chunkStarts n).zip acts).length)
        (h2 : i < acts.length),
        ((chunkStarts n).zip acts).get ⟨i, h1⟩ =
          (i * 16, acts.get ⟨i, h2⟩) := by
  intro n acts
  constructor
  · simp [chunkStarts]
  · intro i h1 h2
    simp [List.get_eq_getElem, List.getElem_zip, chunkStarts]

/-- C6 witness: with body byte length 33 (three chunk starts) and two
preamble symbols, exactly two pairs form and pair 1 is `(16, symbol 1)`. -/
theorem c6_pairing_truncates_witness :
    ((chunkStarts 33).zip ([1, 2] : List Alpha)).length =
      min ((33 + 15) / 16) 2 ∧
    ((chunkStarts 33).zip ([1, 2] : List Alpha)).get ⟨1, by decide⟩ =
      (1 * 16, ([1, 2] : List Alpha).get ⟨1, by decide⟩) :=
  ⟨(c6_pairing_truncates 33 [1, 2]).1,
   (c6_pairing_truncates 33 [1, 2]).2 1 (by decide) (by decide)⟩

/-- C7: on values in `[1, 26]`, `Alpha` addition is commutative and
associative, and value 26 (`'Z'`) is a two-sided identity. -/
theorem c7_alpha_add_laws :
    (∀ a b : Nat, 1 ≤ a → a ≤ 26 → 1 ≤ b → b ≤ 26 →
      Alpha.add a b = Alpha.add b a) ∧
    (∀ a b c : Nat, 1 ≤ a → a ≤ 26 → 1 ≤ b → b ≤ 26 → 1 ≤ c → c ≤ 26 →
      Alpha.add (Alpha.add a b) c = Alpha.add a (Alpha.add b c)) ∧
    (∀ a : Nat, 1 ≤ a → a ≤ 26 → Alpha.add a 26 = a ∧ Alpha.add 26 a = a) := by
  refine ⟨?_, ?_, ?_⟩
  · intro a b _ _ _ _
    simp only [Alpha.add, Nat.add_comm]
  · intro a b c _ _ h3 _ _ _
    simp only [Alpha.add]
    have e1 : (a + b - 1) % 26 + 1 + c - 1 = (a + b - 1) % 26 + c := by omega
    have e2 : a + ((b + c - 1) % 26 + 1) - 1 = a + (b + c - 1) % 26 := by
      omega
    rw [e1, e2, Nat.mod_add_mod, Nat.add_mod_mod]
    have e3 : a + b - 1 + c = a + (b + c - 1) := by omega
    rw [e3]
  · intro a h1 h2
    simp only [Alpha.add]
    omega

/-- C7 witness: the laws evaluated at values 3, 5, 7 and at 4 with the
identity 26. -/
theorem c7_alpha_add_laws_witness :
    Alpha.add 3 5 = Alpha.add 5 3 ∧
    Alpha.add (Alpha.add 3 5) 7 = Alpha.add 3 (Alpha.add 5 7) ∧
    (Alpha.add 4 26 = 4 ∧ Alpha.add 26 4 = 4) :=
  ⟨c7_alpha_add_laws.1 3 5 (by decide) (by decide) (by decide) (by decide),
   c7_alpha_add_laws.2.1 3 5 7 (by decide) (by decide) (by decide)
     (by decide) (by decide) (by decide),
   c7_alpha_add_laws.2.2 4 (by decide) (by decide)⟩

/-- C8: the six transformations map the block parsed from
`"ABCDEFGHIJKLMNOP"` to their golden outputs. -/
theorem c8_transform_fixtures :
    reverse (to_alphas "ABCDEFGHIJKLMNOP".toList) =
      to_alphas "PONMLKJIHGFEDCBA".toList ∧
    consonant_rot13 (to_alphas "ABCDEFGHIJKLMNOP".toList) =
      to_alphas "AOPQESTUIWXYZAOC".toList ∧
    swap_vowels (to_alphas "ABCDEFGHIJKLMNOP".toList) =
      to_alphas "ABCEDFGIHJKLMONP".toList ∧
    combine_positions (to_alphas "ABCDEFGHIJKLMNOP".toList) =
      to_alphas "CCGGKKOOSSWWAAEE".toList ∧
    swap_back_front (to_alphas "ABCDEFGHIJKLMNOP".toList) =
      to_alphas "IJKLMNOPABCDEFGH".toList ∧
    even_rot13 (to_alphas "ABCDEFGHIJKLMNOP".toList) =
      to_alphas "AOCQESGUIWKYMAOC".toList := by
  refine ⟨?_, ?_, ?_, ?_, ?_, ?_⟩ <;> decide

/-- C9: on the one-character seed `'É'` (U+00C9, two UTF-8 bytes) the
preamble length is `ceil(2/17) = 1` and the byte-index slice
`&seed[..1]` splits the character, so `marvin_tpa_12` panics instead of
returning an `InvalidCharacter`-style tagged error. -/
theorem c9_multibyte_slice_panics :
    utf8Len (Char.ofNat 0xC9) = 2 ∧
    preambleLen (byteLen (stripWs [Char.ofNat 0xC9])) = 1 ∧
    marvin_tpa_12 [Char.ofNat 0xC9] = Outcome.panic := by
  refine ⟨?_, ?_, ?_⟩ <;> decide

/-- C10: for every stripped byte length `n`, the number of body chunks
`ceil((n - ceil(n/17))/16)` is at most the preamble length `ceil(n/17)`;
hence whenever the preamble supplies at least that many symbols the zip
keeps every chunk — the truncation can only discard excess preamble
symbols, never body data. -/
theorem c10_chunks_le_preamble :
    (∀ n : Nat,
      (chunkStarts (n - preambleLen n)).length ≤ preambleLen n) ∧
    (∀ (n : Nat) (acts : List Alpha), preambleLen n ≤ acts.length →
      ((chunkStarts (n - preambleLen n)).zip acts).length =
        (chunkStarts (n - preambleLen n)).length) := by
  constructor
  · intro n
    simp only [chunkStarts, preambleLen, List.length_map, List.length_range]
    omega
  · intro n acts h
    have h1 : (chunkStarts (n - preambleLen n)).length ≤ preambleLen n := by
      simp only [chunkStarts, preambleLen, List.length_map, List.length_range]
      omega
    rw [List.length_zip]
    omega

/-- C10 witness: at stripped length 40 the preamble has 3 symbols, the body
37 bytes gives 3 chunks, and with a 3-symbol preamble no chunk is dropped. -/
theorem c10_chunks_le_preamble_witness :
    (chunkStarts (40 - preambleLen 40)).length ≤ preambleLen 40 ∧
    ((chunkStarts (40 - preambleLen 40)).zip ([1, 2, 3] : List Alpha)).length =
      (chunkStarts (40 - preambleLen 40)).length :=
  ⟨c10_chunks_le_preamble.1 40,
   c10_chunks_le_preamble.2 40 [1, 2, 3] (by decide)⟩

end Tpa
